import Mathlib

/-!
Shallow embedding of `src/main.c` (long-multiplication calculator).

The C program works on `unsigned long long int` (64-bit) values; we model
those as `Nat` with an explicit reduction modulo `2 ^ 64` at every
arithmetic operation (`add64`, `mul64`, `wsub`).  Operand strings
(`argv[1]`, `argv[2]`) are modelled as `List Char`.

Two notes on the translation:
* the `operations` array inside `struct Multiplication` is a local stack
  array that the C code only ever updates with `+=`; we model it as
  zero-initialised (the de-facto behaviour the program relies on, and the
  intent signalled by the `m->operations[index + 1] += 0;` line);
* the loops `for (a = 0; a <= multiplier_max; a++)` with
  `multiplier_max = size - 1` are modelled as iteration over
  `List.range size`, which matches the C exactly for every non-empty
  operand string (for an empty string the C underflows `size - 1` and
  runs ~2^64 iterations; theorems therefore carry non-emptiness
  hypotheses).
-/

/-- `2 ^ 64`, the modulus of C `unsigned long long int` arithmetic. -/
def M64 : Nat := 18446744073709551616

/-- 64-bit wrapping addition. -/
def add64 (x y : Nat) : Nat := (x + y) % M64

/-- 64-bit wrapping multiplication. -/
def mul64 (x y : Nat) : Nat := (x * y) % M64

/-- 64-bit wrapping subtraction `x - y` (two's-complement style). -/
def wsub (x y : Nat) : Nat := (x + (M64 - y % M64)) % M64

/-- `(unsigned long long int) c - 48` from `main.c` lines 174-175:
the character value minus the ASCII code of `'0'`, with 64-bit wrap-around
when the character is below `'0'`. -/
def digit_val (c : Char) : Nat := wsub c.toNat 48

/-- `get_power` from `main.c` lines 189-197: iterated wrapping
multiplication `result *= base` starting from 1. -/
def get_power (base exponent : Nat) : Nat :=
  (List.range exponent).foldl (fun r _ => mul64 r base) 1

/-- The `while (number != 0) { number = number / 10; ++count; }` loop of
`count_digits` (`main.c` lines 45-49), written with structural recursion
on a fuel argument so that the definition reduces by computation; since
`n / 10 < n` for `n ≠ 0`, a fuel of `n` is always enough (`cd_fuel_eq`). -/
def cd_fuel : Nat → Nat → Nat
  | 0, _ => 0
  | fuel + 1, n => if n = 0 then 0 else cd_fuel fuel (n / 10) + 1

/-- The digit-counting loop of `count_digits`, fuelled with `n` itself. -/
def count_digits_loop (n : Nat) : Nat := cd_fuel n n

/-- `count_digits` from `main.c` lines 42-51. -/
def count_digits (number : Nat) : Nat :=
  if number = 0 then 1 else count_digits_loop number

/-- Digit emission of `printf("%llu", n)` for a nonzero argument
(most-significant digit first), with the same fuel pattern as `cd_fuel`. -/
def dec_fuel : Nat → Nat → List Char
  | 0, _ => []
  | fuel + 1, n =>
      if n = 0 then [] else dec_fuel fuel (n / 10) ++ [Char.ofNat (48 + n % 10)]

/-- The nonzero-argument decimal numeral, fuelled with `n` itself. -/
def dec_repr_loop (n : Nat) : List Char := dec_fuel n n

/-- The decimal numeral printed by `printf("%llu", n)` (and produced by
`sprintf(result_str, "%llu", ...)` at `main.c` line 239). -/
def dec_repr (n : Nat) : List Char :=
  if n = 0 then [Char.ofNat 48] else dec_repr_loop n

/-- Decimal accumulation of a digit string (the value a digit string
denotes; used to model `strtoul`). -/
def pv (s : List Char) : Nat :=
  s.foldl (fun acc c => acc * 10 + digit_val c) 0

/-- Decimal-digit test used to model where `strtoul` stops parsing. -/
def isDigitChar (c : Char) : Bool := 48 ≤ c.toNat && c.toNat ≤ 57

/-- Model of `strtoul(s, &end_ptr, 10)` (`main.c` lines 229-230): parse the
longest leading run of decimal digits; on overflow the C library clamps to
`ULONG_MAX = 2^64 - 1`. -/
def strtoul (s : List Char) : Nat :=
  min (pv (s.takeWhile isDigitChar)) (M64 - 1)

/-- The decimal digit of the operand string `s` at position `i`, counted
from the least significant digit: the C code reads
`str[size - 1 - i] - 48`. -/
def digit_at (s : List Char) (i : Nat) : Nat :=
  digit_val (s.getD (s.length - 1 - i) (Char.ofNat 48))

/-- One iteration of the inner loop of `generate_operations`
(`main.c` lines 170-181): `b` is the multiplicand digit position (least
significant first), `im` the index into the multiplier string, and the
accumulator pair is `(operations[index], operations[index + 1])`, i.e.
the row's units total and carry total. -/
def inner_step (mstr astr : List Char) (im : Nat) (acc : Nat × Nat) (b : Nat) :
    Nat × Nat :=
  let amax := astr.length - 1
  let digit_position := get_power 10 b
  let carry_position := get_power 10 (b + 1)
  let multiplier := digit_val (mstr.getD im (Char.ofNat 48))
  let multiplicand := digit_val (astr.getD (amax - b) (Char.ofNat 48))
  let multiplication := mul64 multiplier multiplicand
  let last_digit := multiplication % 10
  let first_digits := multiplication / 10
  (add64 acc.1 (mul64 last_digit digit_position),
   add64 acc.2 (mul64 first_digits carry_position))

/-- The full inner loop of `generate_operations` for one multiplier digit:
returns the row's `(units_total, carry_total)` pair. -/
def gen_row (mstr astr : List Char) (im : Nat) : Nat × Nat :=
  (List.range astr.length).foldl (inner_step mstr astr im) (0, 0)

/-- The three `operations` entries written by outer-loop iteration `a` of
`generate_operations`: units total, carry total, and their (wrapping) sum
(`main.c` lines 179-183). -/
def row_block (mstr astr : List Char) (a : Nat) : List Nat :=
  let p := gen_row mstr astr ((mstr.length - 1) - a)
  [p.1, p.2, add64 p.1 p.2]

/-- The contents of the `operations` array after `generate_operations`
(`main.c` lines 152-187): outer-loop iteration `a` fills slots
`3a, 3a+1, 3a+2`. -/
def gen_ops (mstr astr : List Char) : List Nat :=
  (List.range mstr.length).foldl
    (fun ops a => ops ++ row_block mstr astr a) []

/-- The declared capacity of the fixed `operations` array in
`struct Multiplication` (`main.c` line 22). -/
def operations_capacity : Nat := 500000

/-- `struct Multiplication` (`main.c` lines 9-26), with the `operations`
array modelled by the list of entries actually written. -/
structure Multiplication where
  multiplier : Nat
  multiplier_str : List Char
  multiplier_size : Nat
  multiplicand : Nat
  multiplicand_str : List Char
  multiplicand_size : Nat
  result : Nat
  result_size : Nat
  operations : List Nat
  operations_size : Nat
  is_printing_description : Bool

/-- The struct-filling part of `main` (`main.c` lines 228-246).
`flag_init` is the indeterminate initial value of the uninitialised field
`is_printing_description`: the code only ever assigns it (to 0) when
`argv[4]` starts with `'n'` or `'N'` (lines 242-244), so on any other
token the field keeps its initial stack value. -/
def main_build (arg1 arg2 arg4 : List Char) (flag_init : Bool) : Multiplication :=
  let multiplier := strtoul arg1
  let multiplicand := strtoul arg2
  let result := mul64 multiplier multiplicand
  { multiplier := multiplier
    multiplier_str := arg1
    multiplier_size := arg1.length
    multiplicand := multiplicand
    multiplicand_str := arg2
    multiplicand_size := arg2.length
    result := result
    result_size := count_digits result
    operations := gen_ops arg1 arg2
    operations_size := (gen_ops arg1 arg2).length
    is_printing_description :=
      if arg4.headD (Char.ofNat 0) = 'n' ∨ arg4.headD (Char.ofNat 0) = 'N' then
        false
      else flag_init }

/-- `spaces_left` constant of `print_text` (`main.c` line 81). -/
def spaces_left : Nat := 2

/-- `set_text_fill` (`main.c` lines 66-78): the string produced is `size`
copies of `character` (the C helper also writes a terminating NUL one byte
past `malloc(size)` — a defect that does not change the produced text). -/
def set_text_fill (character : Char) (size : Nat) : List Char :=
  List.replicate size character

/-- `print_multiplication_custom_separator` (`main.c` lines 54-60): one
line of `repeat_count` copies of `separator`. -/
def sep_line (repeat_count : Nat) (separator : Char) : List Char :=
  List.replicate repeat_count separator

/-- Line 1 of the output: the right-justified multiplicand
(`main.c` lines 86-90). -/
def line1 (m : Multiplication) : List Char :=
  let sub_spaces_left := add64 spaces_left (wsub m.result_size m.multiplicand_size)
  set_text_fill ' ' sub_spaces_left ++ m.multiplicand_str ++
    (if m.is_printing_description then " ---> Multiplicand => a".toList else [])

/-- Line 2 of the output: `x` then the right-justified multiplier
(`main.c` lines 92-96). -/
def line2 (m : Multiplication) : List Char :=
  let sub_spaces_left := add64 (wsub spaces_left 1) (wsub m.result_size m.multiplier_size)
  'x' :: (set_text_fill ' ' sub_spaces_left ++ m.multiplier_str ++
    (if m.is_printing_description then " ---> Multiplier   => b".toList else []))

/-- The units line of row `r` in the per-row section
(`main.c` lines 106-112), where `r = i / 3`. -/
def row_units_line (m : Multiplication) (r : Nat) : List Char :=
  let pre_space := wsub m.result_size r
  let v := m.operations.getD (3 * r) 0
  let spaces_inner_left := wsub pre_space (count_digits v)
  ' ' :: ' ' :: (set_text_fill ' ' spaces_inner_left ++ dec_repr v ++
    (if m.is_printing_description then
      ' ' :: (set_text_fill ' ' r ++ "---> First digit: b".toList ++
        dec_repr (r + 1) ++ " * a[x]".toList)
     else []))

/-- The carry line of row `r` (`main.c` lines 114-120). -/
def row_carry_line (m : Multiplication) (r : Nat) : List Char :=
  let pre_space := wsub m.result_size r
  let v := m.operations.getD (3 * r + 1) 0
  let spaces_inner_left := wsub pre_space (count_digits v)
  '+' :: ' ' :: (set_text_fill ' ' spaces_inner_left ++ dec_repr v ++
    (if m.is_printing_description then
      ' ' :: (set_text_fill ' ' r ++ "---> Carry: b".toList ++
        dec_repr (r + 1) ++ " * a[x]".toList)
     else []))

/-- The row-sum line of row `r` (`main.c` lines 122-126). -/
def row_sum_line (m : Multiplication) (r : Nat) : List Char :=
  let pre_space := wsub m.result_size r
  let v := m.operations.getD (3 * r + 2) 0
  let spaces_inner_left := wsub pre_space (count_digits v)
  '=' :: ' ' :: (set_text_fill ' ' spaces_inner_left ++ dec_repr v ++
    (if m.is_printing_description then
      ' ' :: (set_text_fill ' ' r ++ "---> Result of the sum".toList)
     else []))

/-- The lines printed by iteration `i = 3r` of the first loop of
`print_text` (`main.c` lines 101-131): the three row lines, then a `-`
separator when another row follows. -/
def row_section_block (m : Multiplication) (r : Nat) : List (List Char) :=
  [row_units_line m r, row_carry_line m r, row_sum_line m r] ++
    (if 3 * r + 3 < m.operations_size then
      [sep_line (add64 spaces_left m.result_size) '-']
     else [])

/-- The first loop of `print_text` (`main.c` lines 101-131); the loop
`for (i = 0; i < operations_size; i += 3)` runs `⌈operations_size / 3⌉`
times. -/
def row_section (m : Multiplication) : List (List Char) :=
  (List.range ((m.operations_size + 2) / 3)).foldl
    (fun ls r => ls ++ row_section_block m r) []

/-- The shifted-contribution line printed by iteration `i = 3r + 2` of the
second loop of `print_text` (`main.c` lines 135-144): `+ row_sum` followed
by `i / 3 = r` zero characters. -/
def shifted_line (m : Multiplication) (r : Nat) : List Char :=
  let pre_space := wsub m.result_size r
  let v := m.operations.getD (3 * r + 2) 0
  let spaces_inner_left := wsub pre_space (count_digits v)
  '+' :: ' ' :: (set_text_fill ' ' spaces_inner_left ++ dec_repr v ++
    set_text_fill '0' r ++
    (if m.is_printing_description then
      " ---> Result: b".toList ++ dec_repr (r + 1) ++ " * a".toList
     else []))

/-- The second loop of `print_text` (`main.c` lines 135-144): the loop
`for (i = 2; i < operations_size; i += 3)` runs `⌊operations_size / 3⌋`
times. -/
def shifted_section (m : Multiplication) : List (List Char) :=
  (List.range (m.operations_size / 3)).map (shifted_line m)

/-- The final line `= result` (`main.c` lines 147-149). -/
def final_line (m : Multiplication) : List Char :=
  '=' :: ' ' :: (dec_repr m.result ++
    (if m.is_printing_description then " ---> Final result".toList else []))

/-- All lines printed by `print_text` (`main.c` lines 80-150), in order. -/
def print_text_lines (m : Multiplication) : List (List Char) :=
  line1 m :: line2 m :: sep_line (add64 spaces_left m.result_size) '=' ::
    (row_section m ++
      [sep_line (add64 spaces_left m.result_size) '='] ++
      shifted_section m ++
      [sep_line (add64 spaces_left m.result_size) '-', final_line m])

/-! ### Basic lemmas about the 64-bit wrapping operations -/

lemma M64_eq : M64 = 2 ^ 64 := by norm_num [M64]

lemma add64_eq {x y : Nat} (h : x + y < M64) : add64 x y = x + y := by
  simp [add64, Nat.mod_eq_of_lt h]

lemma mul64_eq {x y : Nat} (h : x * y < M64) : mul64 x y = x * y := by
  simp [mul64, Nat.mod_eq_of_lt h]

lemma wsub_eq {x y : Nat} (hyx : y ≤ x) (hx : x < M64) : wsub x y = x - y := by
  have hy : y < M64 := lt_of_le_of_lt hyx hx
  have h1 : y % M64 = y := Nat.mod_eq_of_lt hy
  have h2 : x + (M64 - y) = M64 + (x - y) := by omega
  have h3 : x - y < M64 := by omega
  simp [wsub, h1, h2, Nat.add_mod_left, Nat.mod_eq_of_lt h3]

lemma digit_val_eq {c : Char} (h0 : 48 ≤ c.toNat) (h9 : c.toNat ≤ 57) :
    digit_val c = c.toNat - 48 := by
  have : c.toNat < M64 := by unfold M64; omega
  exact wsub_eq h0 this

lemma digit_val_le_nine {c : Char} (h0 : 48 ≤ c.toNat) (h9 : c.toNat ≤ 57) :
    digit_val c ≤ 9 := by
  rw [digit_val_eq h0 h9]; omega

lemma get_power_eq (base : Nat) : ∀ e : Nat, get_power base e = base ^ e % M64 := by
  intro e
  induction e with
  | zero => simp [get_power]; norm_num [M64]
  | succ k ih =>
      unfold get_power at ih ⊢
      rw [List.range_succ, List.foldl_append]
      simp only [List.foldl_cons, List.foldl_nil]
      rw [ih]
      show (base ^ k % M64) * base % M64 = base ^ (k + 1) % M64
      rw [pow_succ, Nat.mod_mul_mod]

lemma get_power_pow {e : Nat} (h : 10 ^ e < M64) : get_power 10 e = 10 ^ e := by
  rw [get_power_eq, Nat.mod_eq_of_lt h]

lemma pow10_lt_M64 {e : Nat} (h : e ≤ 19) : 10 ^ e < M64 := by
  calc 10 ^ e ≤ 10 ^ 19 := Nat.pow_le_pow_right (by norm_num) h
  _ < M64 := by norm_num [M64]

/-! ### The value denoted by a digit string -/

lemma pv_foldl_shift (t : List Char) :
    ∀ acc : Nat,
      t.foldl (fun acc c => acc * 10 + digit_val c) acc =
        acc * 10 ^ t.length + pv t := by
  induction t with
  | nil => intro acc; simp [pv]
  | cons c t ih =>
      intro acc
      simp only [List.foldl_cons, List.length_cons, pv]
      rw [ih (acc * 10 + digit_val c), ih (0 * 10 + digit_val c)]
      ring

lemma pv_cons (c : Char) (t : List Char) :
    pv (c :: t) = digit_val c * 10 ^ t.length + pv t := by
  have h : pv (c :: t) =
      t.foldl (fun acc c => acc * 10 + digit_val c) (0 * 10 + digit_val c) := by
    simp only [pv, List.foldl_cons]
  rw [h, pv_foldl_shift t (0 * 10 + digit_val c)]
  ring

lemma digit_at_cons_lt (c : Char) (t : List Char) {i : Nat} (hi : i < t.length) :
    digit_at (c :: t) i = digit_at t i := by
  unfold digit_at
  have h1 : (c :: t).length - 1 - i = (t.length - 1 - i) + 1 := by
    simp only [List.length_cons]; omega
  rw [h1]
  simp

lemma digit_at_cons_self (c : Char) (t : List Char) :
    digit_at (c :: t) t.length = digit_val c := by
  unfold digit_at
  simp

lemma pv_eq_sum (s : List Char) :
    pv s = ∑ i in Finset.range s.length, digit_at s i * 10 ^ i := by
  induction s with
  | nil => simp [pv]
  | cons c t ih =>
      rw [pv_cons, ih]
      simp only [List.length_cons]
      rw [Finset.sum_range_succ, digit_at_cons_self]
      have : ∀ i ∈ Finset.range t.length,
          digit_at (c :: t) i * 10 ^ i = digit_at t i * 10 ^ i := by
        intro i hi
        rw [digit_at_cons_lt c t (Finset.mem_range.mp hi)]
      rw [Finset.sum_congr rfl this]
      ring

lemma pv_lt (s : List Char) (hd : ∀ c ∈ s, 48 ≤ c.toNat ∧ c.toNat ≤ 57) :
    pv s < 10 ^ s.length := by
  induction s with
  | nil => simp [pv]
  | cons c t ih =>
      rw [pv_cons]
      have hc := hd c (List.mem_cons_self c t)
      have h9 : digit_val c ≤ 9 := digit_val_le_nine hc.1 hc.2
      have ht : pv t < 10 ^ t.length :=
        ih (fun x hx => hd x (List.mem_cons_of_mem c hx))
      have : digit_val c * 10 ^ t.length ≤ 9 * 10 ^ t.length :=
        Nat.mul_le_mul_right _ h9
      calc digit_val c * 10 ^ t.length + pv t
          < 9 * 10 ^ t.length + 10 ^ t.length := by omega
      _ = 10 ^ (t.length + 1) := by ring
      _ = 10 ^ (c :: t).length := by simp

/-! ### `count_digits` and the printed numeral -/

lemma cd_fuel_eq : ∀ fuel n : Nat, n ≤ fuel →
    cd_fuel fuel n = (Nat.digits 10 n).length := by
  intro fuel
  induction fuel with
  | zero =>
      intro n hn
      have : n = 0 := Nat.le_zero.mp hn
      subst this
      simp [cd_fuel]
  | succ fuel ih =>
      intro n hn
      by_cases h : n = 0
      · subst h; simp [cd_fuel]
      · have hdiv : n / 10 ≤ fuel := by
          have h1 : n / 10 < n := Nat.div_lt_self (Nat.pos_of_ne_zero h) (by norm_num)
          omega
        rw [cd_fuel, if_neg h, ih (n / 10) hdiv,
          Nat.digits_def' (by norm_num : 1 < 10) (Nat.pos_of_ne_zero h)]
        simp

lemma count_digits_loop_eq (n : Nat) :
    count_digits_loop n = (Nat.digits 10 n).length :=
  cd_fuel_eq n n (le_refl n)

lemma dec_fuel_length : ∀ fuel n : Nat, (dec_fuel fuel n).length = cd_fuel fuel n := by
  intro fuel
  induction fuel with
  | zero => intro n; simp [dec_fuel, cd_fuel]
  | succ fuel ih =>
      intro n
      by_cases h : n = 0
      · subst h; simp [dec_fuel, cd_fuel]
      · rw [dec_fuel, cd_fuel, if_neg h, if_neg h, List.length_append, ih (n / 10)]
        simp

lemma dec_repr_loop_length (n : Nat) :
    (dec_repr_loop n).length = count_digits_loop n :=
  dec_fuel_length n n

lemma dec_repr_length (n : Nat) : (dec_repr n).length = count_digits n := by
  unfold dec_repr count_digits
  by_cases h : n = 0
  · simp [h]
  · simp [h, dec_repr_loop_length]


/-! ### The inner loop of `generate_operations` -/

lemma sum_units_lt (f : Nat → Nat) (k : Nat) (hf : ∀ b, b < k → f b ≤ 9) :
    (∑ b in Finset.range k, f b * 10 ^ b) < 10 ^ k := by
  induction k with
  | zero => simp
  | succ k ih =>
      rw [Finset.sum_range_succ]
      have h1 : (∑ b in Finset.range k, f b * 10 ^ b) < 10 ^ k :=
        ih (fun b hb => hf b (Nat.lt_succ_of_lt hb))
      have h2 : f k * 10 ^ k ≤ 9 * 10 ^ k :=
        Nat.mul_le_mul_right _ (hf k (Nat.lt_succ_self k))
      have h3 : (10 : Nat) ^ (k + 1) = 10 * 10 ^ k := by rw [pow_succ]; ring
      omega

lemma sum_carry_lt (f : Nat → Nat) (k : Nat) (hf : ∀ b, b < k → f b ≤ 8) :
    (∑ b in Finset.range k, f b * 10 ^ (b + 1)) < 10 ^ (k + 1) := by
  induction k with
  | zero => norm_num
  | succ k ih =>
      rw [Finset.sum_range_succ]
      have h1 : (∑ b in Finset.range k, f b * 10 ^ (b + 1)) < 10 ^ (k + 1) :=
        ih (fun b hb => hf b (Nat.lt_succ_of_lt hb))
      have h2 : f k * 10 ^ (k + 1) ≤ 8 * 10 ^ (k + 1) :=
        Nat.mul_le_mul_right _ (hf k (Nat.lt_succ_self k))
      have h3 : (10 : Nat) ^ (k + 1 + 1) = 10 * 10 ^ (k + 1) := by rw [pow_succ]; ring
      omega

lemma inner_fold_spec (mstr astr : List Char) (im : Nat)
    (hd1 : digit_val (mstr.getD im (Char.ofNat 48)) ≤ 9)
    (hd2 : ∀ b, b < astr.length → digit_at astr b ≤ 9)
    (hlen : astr.length ≤ 18) :
    ∀ k, k ≤ astr.length →
      (List.range k).foldl (inner_step mstr astr im) (0, 0) =
        (∑ b in Finset.range k,
            digit_val (mstr.getD im (Char.ofNat 48)) * digit_at astr b % 10 * 10 ^ b,
         ∑ b in Finset.range k,
            digit_val (mstr.getD im (Char.ofNat 48)) * digit_at astr b / 10 *
              10 ^ (b + 1)) := by
  intro k
  induction k with
  | zero => intro _; simp
  | succ k ih =>
      intro hk1
      have hkl : k < astr.length := hk1
      have ihe := ih (Nat.le_of_succ_le hk1)
      have hd2v : digit_val (astr.getD (astr.length - 1 - k) (Char.ofNat 48)) ≤ 9 :=
        hd2 k hkl
      have hprod : digit_val (mstr.getD im (Char.ofNat 48)) *
          digit_val (astr.getD (astr.length - 1 - k) (Char.ofNat 48)) ≤ 81 :=
        le_trans (Nat.mul_le_mul hd1 hd2v) (by norm_num)
      have e17 : (10 : Nat) ^ 17 = 100000000000000000 := by norm_num
      have e18 : (10 : Nat) ^ 18 = 1000000000000000000 := by norm_num
      have eM : M64 = 18446744073709551616 := rfl
      have h10k : (10 : Nat) ^ k ≤ 10 ^ 17 :=
        Nat.pow_le_pow_right (by norm_num) (by omega)
      have h10k1 : (10 : Nat) ^ (k + 1) ≤ 10 ^ 18 :=
        Nat.pow_le_pow_right (by norm_num) (by omega)
      have hm0 : mul64 (digit_val (mstr.getD im (Char.ofNat 48)))
          (digit_val (astr.getD (astr.length - 1 - k) (Char.ofNat 48))) =
          digit_val (mstr.getD im (Char.ofNat 48)) *
            digit_val (astr.getD (astr.length - 1 - k) (Char.ofNat 48)) :=
        mul64_eq (by omega)
      set d1 := digit_val (mstr.getD im (Char.ofNat 48)) with hd1def
      set d2 := digit_val (astr.getD (astr.length - 1 - k) (Char.ofNat 48)) with hd2def
      have hlast9 : d1 * d2 % 10 ≤ 9 := Nat.le_of_lt_succ (Nat.mod_lt _ (by norm_num))
      have hfirst8 : d1 * d2 / 10 ≤ 8 := by omega
      have hpowk : get_power 10 k = 10 ^ k := get_power_pow (pow10_lt_M64 (by omega))
      have hpowk1 : get_power 10 (k + 1) = 10 ^ (k + 1) :=
        get_power_pow (pow10_lt_M64 (by omega))
      have ht1 : d1 * d2 % 10 * 10 ^ k ≤ 9 * 10 ^ 17 := by
        calc d1 * d2 % 10 * 10 ^ k ≤ 9 * 10 ^ k := Nat.mul_le_mul_right _ hlast9
        _ ≤ 9 * 10 ^ 17 := Nat.mul_le_mul_left _ h10k
      have ht2 : d1 * d2 / 10 * 10 ^ (k + 1) ≤ 8 * 10 ^ 18 := by
        calc d1 * d2 / 10 * 10 ^ (k + 1) ≤ 8 * 10 ^ (k + 1) :=
          Nat.mul_le_mul_right _ hfirst8
        _ ≤ 8 * 10 ^ 18 := Nat.mul_le_mul_left _ h10k1
      have hm1 : mul64 (d1 * d2 % 10) (get_power 10 k) = d1 * d2 % 10 * 10 ^ k := by
        rw [hpowk]; exact mul64_eq (by omega)
      have hm2 : mul64 (d1 * d2 / 10) (get_power 10 (k + 1)) =
          d1 * d2 / 10 * 10 ^ (k + 1) := by
        rw [hpowk1]; exact mul64_eq (by omega)
      have hU : (∑ b in Finset.range k, d1 * digit_at astr b % 10 * 10 ^ b) < 10 ^ k :=
        sum_units_lt _ k
          (fun b _ => Nat.le_of_lt_succ (Nat.mod_lt _ (by norm_num)))
      have hC : (∑ b in Finset.range k, d1 * digit_at astr b / 10 * 10 ^ (b + 1)) <
          10 ^ (k + 1) :=
        sum_carry_lt _ k (fun b hb => by
          have hb9 : digit_at astr b ≤ 9 := hd2 b (lt_trans hb hkl)
          have : d1 * digit_at astr b ≤ 81 :=
            le_trans (Nat.mul_le_mul hd1 hb9) (by norm_num)
          omega)
      have ha1 : add64 (∑ b in Finset.range k, d1 * digit_at astr b % 10 * 10 ^ b)
          (d1 * d2 % 10 * 10 ^ k) =
          (∑ b in Finset.range k, d1 * digit_at astr b % 10 * 10 ^ b) +
            d1 * d2 % 10 * 10 ^ k :=
        add64_eq (by omega)
      have ha2 : add64
          (∑ b in Finset.range k, d1 * digit_at astr b / 10 * 10 ^ (b + 1))
          (d1 * d2 / 10 * 10 ^ (k + 1)) =
          (∑ b in Finset.range k, d1 * digit_at astr b / 10 * 10 ^ (b + 1)) +
            d1 * d2 / 10 * 10 ^ (k + 1) :=
        add64_eq (by omega)
      have hdak : digit_at astr k = d2 := by rw [hd2def]; rfl
      rw [List.range_succ, List.foldl_append, List.foldl_cons, List.foldl_nil, ihe,
        Finset.sum_range_succ, Finset.sum_range_succ, hdak]
      show (add64 _ (mul64 (mul64 d1 d2 % 10) (get_power 10 k)),
            add64 _ (mul64 (mul64 d1 d2 / 10) (get_power 10 (k + 1)))) = _
      rw [hm0, hm1, hm2, ha1, ha2]

/-- The inner loop run to completion: the row for multiplier-string index
`im` holds the units total and the carry total of the claimed shape. -/
lemma gen_row_spec (mstr astr : List Char) (im : Nat)
    (hd1 : digit_val (mstr.getD im (Char.ofNat 48)) ≤ 9)
    (hd2 : ∀ b, b < astr.length → digit_at astr b ≤ 9)
    (hlen : astr.length ≤ 18) :
    gen_row mstr astr im =
      (∑ b in Finset.range astr.length,
          digit_val (mstr.getD im (Char.ofNat 48)) * digit_at astr b % 10 * 10 ^ b,
       ∑ b in Finset.range astr.length,
          digit_val (mstr.getD im (Char.ofNat 48)) * digit_at astr b / 10 *
            10 ^ (b + 1)) :=
  inner_fold_spec mstr astr im hd1 hd2 hlen astr.length (le_refl _)

/-- Pointwise recombination: units plus carry of one digit product is the
digit product itself, positionally weighted. -/
lemma units_add_carry (d1 : Nat) (astr : List Char) (k : Nat) :
    (∑ b in Finset.range k, d1 * digit_at astr b % 10 * 10 ^ b) +
      (∑ b in Finset.range k, d1 * digit_at astr b / 10 * 10 ^ (b + 1)) =
      d1 * ∑ b in Finset.range k, digit_at astr b * 10 ^ b := by
  rw [← Finset.sum_add_distrib]
  have hterm : ∀ b ∈ Finset.range k,
      d1 * digit_at astr b % 10 * 10 ^ b + d1 * digit_at astr b / 10 * 10 ^ (b + 1) =
        d1 * (digit_at astr b * 10 ^ b) := by
    intro b _
    calc d1 * digit_at astr b % 10 * 10 ^ b +
          d1 * digit_at astr b / 10 * 10 ^ (b + 1) =
        (d1 * digit_at astr b % 10 + 10 * (d1 * digit_at astr b / 10)) * 10 ^ b := by
          rw [pow_succ]; ring
    _ = d1 * digit_at astr b * 10 ^ b := by rw [Nat.mod_add_div]
    _ = d1 * (digit_at astr b * 10 ^ b) := by ring
  rw [Finset.sum_congr rfl hterm, Finset.mul_sum]

/-! ### Structure of the `operations` array -/

lemma foldl_append_blocks (f : Nat → List Nat) :
    ∀ (l : List Nat) (init : List Nat),
      l.foldl (fun ops a => ops ++ f a) init = init ++ (l.map f).flatten := by
  intro l
  induction l with
  | nil => intro init; simp
  | cons a t ih =>
      intro init
      simp only [List.foldl_cons, List.map_cons, List.flatten_cons]
      rw [ih (init ++ f a), List.append_assoc]

lemma gen_ops_eq_flatten (mstr astr : List Char) :
    gen_ops mstr astr =
      ((List.range mstr.length).map (row_block mstr astr)).flatten := by
  unfold gen_ops
  rw [foldl_append_blocks]
  simp

lemma flatten_blocks_length (Bs : List (List Nat)) (h : ∀ B ∈ Bs, B.length = 3) :
    Bs.flatten.length = 3 * Bs.length := by
  induction Bs with
  | nil => simp
  | cons B Bs ih =>
      simp only [List.flatten_cons, List.length_append, List.length_cons]
      rw [h B (List.mem_cons_self B Bs), ih (fun C hC => h C (List.mem_cons_of_mem B hC))]
      ring

lemma gen_ops_length (mstr astr : List Char) :
    (gen_ops mstr astr).length = 3 * mstr.length := by
  rw [gen_ops_eq_flatten]
  rw [flatten_blocks_length]
  · simp
  · intro B hB
    obtain ⟨a, _, rfl⟩ := List.mem_map.mp hB
    simp [row_block]

lemma flatten_blocks_getD (Bs : List (List Nat)) (h : ∀ B ∈ Bs, B.length = 3) :
    ∀ r j, r < Bs.length → j < 3 →
      Bs.flatten.getD (3 * r + j) 0 = (Bs.getD r []).getD j 0 := by
  induction Bs with
  | nil => intro r j hr _; simp at hr
  | cons B Bs ih =>
      intro r j hr hj
      have hB : B.length = 3 := h B (List.mem_cons_self B Bs)
      cases r with
      | zero =>
          simp only [Nat.mul_zero, Nat.zero_add, List.flatten_cons]
          rw [List.getD_append _ _ _ _ (by omega)]
          rfl
      | succ r =>
          simp only [List.flatten_cons]
          rw [List.getD_append_right _ _ _ _ (by omega)]
          have harith : 3 * (r + 1) + j - B.length = 3 * r + j := by omega
          rw [harith]
          have := ih (fun C hC => h C (List.mem_cons_of_mem B hC)) r j
            (by simpa using Nat.lt_of_succ_lt_succ (by simpa using hr)) hj
          rw [this]
          rfl

lemma gen_ops_getD (mstr astr : List Char) (r j : Nat)
    (hr : r < mstr.length) (hj : j < 3) :
    (gen_ops mstr astr).getD (3 * r + j) 0 = (row_block mstr astr r).getD j 0 := by
  rw [gen_ops_eq_flatten]
  rw [flatten_blocks_getD _ _ r j (by simpa using hr) hj]
  · congr 1
    rw [List.getD_eq_getElem _ _ (by simpa using hr)]
    simp
  · intro B hB
    obtain ⟨a, _, rfl⟩ := List.mem_map.mp hB
    simp [row_block]

/-! ### Digit bounds from well-formed operand strings -/

lemma digit_val_getD_le (s : List Char)
    (hd : ∀ c ∈ s, 48 ≤ c.toNat ∧ c.toNat ≤ 57) (i : Nat) (hi : i < s.length) :
    digit_val (s.getD i (Char.ofNat 48)) ≤ 9 := by
  rw [List.getD_eq_getElem _ _ hi]
  have hmem : s[i] ∈ s := List.getElem_mem hi
  exact digit_val_le_nine (hd _ hmem).1 (hd _ hmem).2

lemma digit_at_le (s : List Char)
    (hd : ∀ c ∈ s, 48 ≤ c.toNat ∧ c.toNat ≤ 57) (b : Nat) (hb : b < s.length) :
    digit_at s b ≤ 9 :=
  digit_val_getD_le s hd (s.length - 1 - b) (by omega)

/-- The `operations` entries of row `i`, written with exact arithmetic:
row `i` of `generate_operations` holds
`(units_total, carry_total, units_total + carry_total)` where the sum
equals `digit_at(multiplier, i) * value(multiplicand)`. -/
lemma row_block_spec (mstr astr : List Char) (i : Nat)
    (hm : ∀ c ∈ mstr, 48 ≤ c.toNat ∧ c.toNat ≤ 57)
    (ha : ∀ c ∈ astr, 48 ≤ c.toNat ∧ c.toNat ≤ 57)
    (hlen : astr.length ≤ 18) (hi : i < mstr.length) :
    row_block mstr astr i =
      [∑ b in Finset.range astr.length,
          digit_at mstr i * digit_at astr b % 10 * 10 ^ b,
       ∑ b in Finset.range astr.length,
          digit_at mstr i * digit_at astr b / 10 * 10 ^ (b + 1),
       digit_at mstr i * pv astr] := by
  have hda : digit_at mstr i =
      digit_val (mstr.getD (mstr.length - 1 - i) (Char.ofNat 48)) := rfl
  have him : digit_val (mstr.getD (mstr.length - 1 - i) (Char.ofNat 48)) ≤ 9 :=
    digit_val_getD_le mstr hm _ (by omega)
  have hd2 : ∀ b, b < astr.length → digit_at astr b ≤ 9 := digit_at_le astr ha
  have hrow := gen_row_spec mstr astr (mstr.length - 1 - i) him hd2 hlen
  have hU_lt : (∑ b in Finset.range astr.length,
      digit_at mstr i * digit_at astr b % 10 * 10 ^ b) < 10 ^ astr.length :=
    sum_units_lt _ _ (fun b _ => Nat.le_of_lt_succ (Nat.mod_lt _ (by norm_num)))
  have hC_lt : (∑ b in Finset.range astr.length,
      digit_at mstr i * digit_at astr b / 10 * 10 ^ (b + 1)) <
      10 ^ (astr.length + 1) :=
    sum_carry_lt _ _ (fun b hb => by
      have hb9 : digit_at astr b ≤ 9 := hd2 b hb
      have h1 : digit_at mstr i ≤ 9 := by rw [hda]; exact him
      have : digit_at mstr i * digit_at astr b ≤ 81 :=
        le_trans (Nat.mul_le_mul h1 hb9) (by norm_num)
      omega)
  have h18 : (10 : Nat) ^ astr.length ≤ 10 ^ 18 :=
    Nat.pow_le_pow_right (by norm_num) hlen
  have h19 : (10 : Nat) ^ (astr.length + 1) ≤ 10 ^ 19 :=
    Nat.pow_le_pow_right (by norm_num) (by omega)
  have e18 : (10 : Nat) ^ 18 = 1000000000000000000 := by norm_num
  have e19 : (10 : Nat) ^ 19 = 10000000000000000000 := by norm_num
  have eM : M64 = 18446744073709551616 := rfl
  unfold row_block
  rw [hrow, ← hda]
  have hadd : add64
      (∑ b in Finset.range astr.length, digit_at mstr i * digit_at astr b % 10 * 10 ^ b)
      (∑ b in Finset.range astr.length,
        digit_at mstr i * digit_at astr b / 10 * 10 ^ (b + 1)) =
      (∑ b in Finset.range astr.length, digit_at mstr i * digit_at astr b % 10 * 10 ^ b) +
      (∑ b in Finset.range astr.length,
        digit_at mstr i * digit_at astr b / 10 * 10 ^ (b + 1)) :=
    add64_eq (by omega)
  simp only [hadd]
  rw [units_add_carry, ← pv_eq_sum]

/-- C2: For every row index `i` (one row per multiplier digit, least
significant first), the computed `units_total` accumulates
`(d1*d2 mod 10) * 10^j` and `carry_total` accumulates
`(d1*d2 div 10) * 10^(j+1)` over all multiplicand digit positions `j`, and
`row_sum[i] = units_total[i] + carry_total[i]` equals
`digit_at(multiplier, i) * multiplicand` — the unshifted partial product
of the full multiplicand by that single multiplier digit. -/
theorem generate_operations_row_correct (mstr astr : List Char) (i : Nat)
    (hm : ∀ c ∈ mstr, 48 ≤ c.toNat ∧ c.toNat ≤ 57)
    (ha : ∀ c ∈ astr, 48 ≤ c.toNat ∧ c.toNat ≤ 57)
    (hlen : astr.length ≤ 18) (hi : i < mstr.length) :
    (gen_ops mstr astr).getD (3 * i) 0 =
      (∑ j in Finset.range astr.length,
        digit_at mstr i * digit_at astr j % 10 * 10 ^ j) ∧
    (gen_ops mstr astr).getD (3 * i + 1) 0 =
      (∑ j in Finset.range astr.length,
        digit_at mstr i * digit_at astr j / 10 * 10 ^ (j + 1)) ∧
    (gen_ops mstr astr).getD (3 * i + 2) 0 =
      (gen_ops mstr astr).getD (3 * i) 0 + (gen_ops mstr astr).getD (3 * i + 1) 0 ∧
    (gen_ops mstr astr).getD (3 * i + 2) 0 = digit_at mstr i * pv astr := by
  have hblock := row_block_spec mstr astr i hm ha hlen hi
  have g0 : (gen_ops mstr astr).getD (3 * i) 0 = (row_block mstr astr i).getD 0 0 := by
    have := gen_ops_getD mstr astr i 0 hi (by norm_num)
    simpa using this
  have g1 := gen_ops_getD mstr astr i 1 hi (by norm_num)
  have g2 := gen_ops_getD mstr astr i 2 hi (by norm_num)
  rw [g0, g1, g2, hblock]
  simp only [List.getD_cons_zero, List.getD_cons_succ]
  refine ⟨trivial, trivial, ?_, trivial⟩
  rw [units_add_carry, ← pv_eq_sum]

/-- Witness for C2 at multiplier "23", multiplicand "14", row 0. -/
theorem generate_operations_row_correct_witness :
    (∀ c ∈ "23".toList, 48 ≤ c.toNat ∧ c.toNat ≤ 57) ∧
    (∀ c ∈ "14".toList, 48 ≤ c.toNat ∧ c.toNat ≤ 57) ∧
    "14".toList.length ≤ 18 ∧ 0 < "23".toList.length ∧
    ((gen_ops "23".toList "14".toList).getD (3 * 0) 0 =
      (∑ j in Finset.range "14".toList.length,
        digit_at "23".toList 0 * digit_at "14".toList j % 10 * 10 ^ j) ∧
    (gen_ops "23".toList "14".toList).getD (3 * 0 + 1) 0 =
      (∑ j in Finset.range "14".toList.length,
        digit_at "23".toList 0 * digit_at "14".toList j / 10 * 10 ^ (j + 1)) ∧
    (gen_ops "23".toList "14".toList).getD (3 * 0 + 2) 0 =
      (gen_ops "23".toList "14".toList).getD (3 * 0) 0 +
        (gen_ops "23".toList "14".toList).getD (3 * 0 + 1) 0 ∧
    (gen_ops "23".toList "14".toList).getD (3 * 0 + 2) 0 =
      digit_at "23".toList 0 * pv "14".toList) :=
  ⟨by decide, by decide, by decide, by decide,
    generate_operations_row_correct "23".toList "14".toList 0
      (by decide) (by decide) (by decide) (by decide)⟩

/-! ### `strtoul` on well-formed digit strings -/

lemma strtoul_eq_pv (s : List Char)
    (hd : ∀ c ∈ s, 48 ≤ c.toNat ∧ c.toNat ≤ 57) (hv : pv s < M64) :
    strtoul s = pv s := by
  unfold strtoul
  have htW : s.takeWhile isDigitChar = s := by
    rw [List.takeWhile_eq_self_iff]
    intro c hc
    have := hd c hc
    simp [isDigitChar]
    omega
  rw [htW]
  omega

/-- C1: For all operands `a` (multiplicand) and `b` (multiplier) given as
decimal digit strings within the supported width, the sum over all rows of
`row_sum[i] * 10^i` equals `a * b` and equals `result.value`, where
`result.value` is computed by direct multiplication of the two operand
values (not by summing the partial products), and the two paths agree. -/
theorem long_multiplication_correct (mstr astr arg4 : List Char) (flag_init : Bool)
    (hm : ∀ c ∈ mstr, 48 ≤ c.toNat ∧ c.toNat ≤ 57)
    (ha : ∀ c ∈ astr, 48 ≤ c.toNat ∧ c.toNat ≤ 57)
    (hlen_a : astr.length ≤ 18) (hlen_m : mstr.length ≤ 19)
    (hm_ne : mstr ≠ []) (ha_ne : astr ≠ [])
    (hprod : pv mstr * pv astr < M64) :
    (∑ i in Finset.range mstr.length,
        (gen_ops mstr astr).getD (3 * i + 2) 0 * 10 ^ i) = pv mstr * pv astr ∧
    (main_build mstr astr arg4 flag_init).result = pv mstr * pv astr := by
  have hrowsum : ∀ i ∈ Finset.range mstr.length,
      (gen_ops mstr astr).getD (3 * i + 2) 0 * 10 ^ i =
        digit_at mstr i * pv astr * 10 ^ i := by
    intro i hi
    have hi' : i < mstr.length := Finset.mem_range.mp hi
    rw [gen_ops_getD mstr astr i 2 hi' (by norm_num),
      row_block_spec mstr astr i hm ha hlen_a hi']
    simp
  have hsum : (∑ i in Finset.range mstr.length,
      (gen_ops mstr astr).getD (3 * i + 2) 0 * 10 ^ i) = pv mstr * pv astr := by
    rw [Finset.sum_congr rfl hrowsum]
    have : ∀ i ∈ Finset.range mstr.length,
        digit_at mstr i * pv astr * 10 ^ i = pv astr * (digit_at mstr i * 10 ^ i) := by
      intro i _; ring
    rw [Finset.sum_congr rfl this, ← Finset.mul_sum, ← pv_eq_sum]
    ring
  refine ⟨hsum, ?_⟩
  have hva : pv astr < M64 := by
    have h1 : pv astr < 10 ^ astr.length := pv_lt astr ha
    have h2 : (10 : Nat) ^ astr.length ≤ 10 ^ 18 :=
      Nat.pow_le_pow_right (by norm_num) hlen_a
    have e18 : (10 : Nat) ^ 18 = 1000000000000000000 := by norm_num
    have eM : M64 = 18446744073709551616 := rfl
    omega
  have hvm : pv mstr < M64 := by
    have h1 : pv mstr < 10 ^ mstr.length := pv_lt mstr hm
    have h2 : (10 : Nat) ^ mstr.length ≤ 10 ^ 19 :=
      Nat.pow_le_pow_right (by norm_num) hlen_m
    have e19 : (10 : Nat) ^ 19 = 10000000000000000000 := by norm_num
    have eM : M64 = 18446744073709551616 := rfl
    omega
  show mul64 (strtoul mstr) (strtoul astr) = pv mstr * pv astr
  rw [strtoul_eq_pv mstr hm hvm, strtoul_eq_pv astr ha hva]
  exact mul64_eq hprod

/-- Witness for C1 at multiplier "23", multiplicand "14". -/
theorem long_multiplication_correct_witness :
    (∀ c ∈ "23".toList, 48 ≤ c.toNat ∧ c.toNat ≤ 57) ∧
    (∀ c ∈ "14".toList, 48 ≤ c.toNat ∧ c.toNat ≤ 57) ∧
    "14".toList.length ≤ 18 ∧ "23".toList.length ≤ 19 ∧
    "23".toList ≠ [] ∧ "14".toList ≠ [] ∧
    pv "23".toList * pv "14".toList < M64 ∧
    ((∑ i in Finset.range "23".toList.length,
        (gen_ops "23".toList "14".toList).getD (3 * i + 2) 0 * 10 ^ i) =
          pv "23".toList * pv "14".toList ∧
      (main_build "23".toList "14".toList "n".toList false).result =
        pv "23".toList * pv "14".toList) :=
  ⟨by decide, by decide, by decide, by decide, by decide, by decide, by decide,
    long_multiplication_correct "23".toList "14".toList "n".toList false
      (by decide) (by decide) (by decide) (by decide) (by decide) (by decide)
      (by decide)⟩

/-- C10: `count_digits 0 = 1`, and for every nonzero unsigned 64-bit
integer `n`, `count_digits n` equals the number of decimal digits of `n`
(the length of the canonical decimal representation, both as
`Nat.digits 10 n` and as the printed numeral `dec_repr n`). -/
theorem count_digits_correct :
    count_digits 0 = 1 ∧
    ∀ n : Nat, 0 < n → n < M64 →
      count_digits n = (Nat.digits 10 n).length ∧
      count_digits n = (dec_repr n).length := by
  constructor
  · rfl
  · intro n hn _
    have h0 : n ≠ 0 := Nat.pos_iff_ne_zero.mp hn
    constructor
    · simp [count_digits, h0, count_digits_loop_eq]
    · rw [dec_repr_length]

/-- Witness for C10 at `n = 12345`. -/
theorem count_digits_correct_witness :
    count_digits 0 = 1 ∧ 0 < 12345 ∧ 12345 < M64 ∧
      (count_digits 12345 = (Nat.digits 10 12345).length ∧
       count_digits 12345 = (dec_repr 12345).length) :=
  ⟨count_digits_correct.1, by decide, by decide,
    count_digits_correct.2 12345 (by decide) (by decide)⟩

/-- C3 (code bug evidence): on multiplier "12a" the code does not fail;
it converts `'a'` to the "digit" 49 (`'a' - '0'`), stores the garbled row
sum 245 (no decimal digit d can give `d * 5 = 245`), and still renders a
final line `= 60` (from `strtoul("12a") = 12`). -/
theorem invalid_digit_not_rejected :
    digit_val 'a' = 49 ∧
    (gen_ops "12a".toList "5".toList).getD 2 0 = 245 ∧
    (∀ d : Nat, d < 10 → d * pv "5".toList ≠ 245) ∧
    final_line (main_build "12a".toList "5".toList "n".toList false) =
      "= 60".toList := by
  refine ⟨by decide, by decide, by decide, by decide⟩

/-- C4 (code bug evidence): a multiplier of 166667 digits is not rejected;
the engine computes `3 * 166667 = 500001` row entries, exceeding the fixed
500000-slot `operations` array (an out-of-bounds write in the C program),
instead of failing up front. -/
theorem oversize_input_not_rejected :
    (List.replicate 166667 '1' : List Char) ≠ [] ∧
    (gen_ops (List.replicate 166667 '1') "5".toList).length = 3 * 166667 ∧
    operations_capacity < 3 * 166667 := by
  refine ⟨?_, ?_, by norm_num [operations_capacity]⟩
  · apply List.ne_nil_of_length_pos
    rw [List.length_replicate]
    norm_num
  · rw [gen_ops_length, List.length_replicate]

/-- C5 (code bug evidence): overflow is never checked.  With operands
4294967296 × 4294967296 the true product is exactly `2^64 ≠ 0`, yet the
computed `result` silently wraps to 0; and the positional weight
`get_power 10 20` silently wraps instead of being `10^20`. -/
theorem overflow_wraps_silently :
    (main_build "4294967296".toList "4294967296".toList "n".toList false).result
      = 0 ∧
    pv "4294967296".toList * pv "4294967296".toList = 2 ^ 64 ∧
    (2 : Nat) ^ 64 ≠ 0 ∧
    get_power 10 20 = 7766279631452241920 ∧
    (10 : Nat) ^ 20 ≠ 7766279631452241920 := by
  refine ⟨by decide, by decide, by decide, ?_, by norm_num⟩
  rw [get_power_eq]
  decide

/-- C8 (code bug evidence): the code turns annotations off when the flag
token starts with `'n'`/`'N'`, but it never assigns the field otherwise —
`is_printing_description` keeps its indeterminate initial stack value
(`flag_init` in the model), so a token such as "y" does NOT guarantee
annotations are on: with a zero-initialised stack they stay off. -/
theorem annotate_flag_uninitialized :
    (∀ (arg1 arg2 tok : List Char) (init : Bool),
      (tok.headD (Char.ofNat 0) = 'n' ∨ tok.headD (Char.ofNat 0) = 'N') →
        (main_build arg1 arg2 tok init).is_printing_description = false) ∧
    (main_build "2".toList "3".toList "y".toList false).is_printing_description
      = false ∧
    (main_build "2".toList "3".toList "y".toList true).is_printing_description
      = true ∧
    ¬("y".toList.headD (Char.ofNat 0) = 'n' ∨
      "y".toList.headD (Char.ofNat 0) = 'N') := by
  refine ⟨?_, by decide, by decide, by decide⟩
  intro arg1 arg2 tok init h
  simp only [main_build]
  rw [if_pos h]

/-- Witness for C8's universally quantified conjunct at token "no". -/
theorem annotate_flag_uninitialized_witness :
    ("no".toList.headD (Char.ofNat 0) = 'n' ∨
      "no".toList.headD (Char.ofNat 0) = 'N') ∧
    (main_build "2".toList "3".toList "no".toList true).is_printing_description
      = false :=
  ⟨by decide,
    annotate_flag_uninitialized.1 "2".toList "3".toList "no".toList true
      (by decide)⟩

/-- C9 counterexample: the row storage is a fixed 500000-entry buffer
(`main.c` line 22), not a buffer of `3 * digit_count(multiplier)` entries:
for multiplier "23" the logical entry count is 6, not 500000. -/
theorem operations_buffer_not_input_sized :
    operations_capacity = 500000 ∧
    (gen_ops "23".toList "14".toList).length = 6 ∧
    operations_capacity ≠ 3 * "23".toList.length := by
  refine ⟨rfl, by decide, by decide⟩

/-- C9 amended: after `generate_operations` runs, the logical entry count
`operations_size` equals `3 * digit_count(multiplier)`; the backing
storage, however, is the fixed 500000-entry array. -/
theorem operations_size_three_per_digit (mstr astr arg4 : List Char)
    (flag_init : Bool) (hne : mstr ≠ []) :
    (main_build mstr astr arg4 flag_init).operations_size = 3 * mstr.length ∧
    operations_capacity = 500000 := by
  constructor
  · show (gen_ops mstr astr).length = 3 * mstr.length
    exact gen_ops_length mstr astr
  · rfl

/-- Witness for C9's amended theorem at multiplier "23". -/
theorem operations_size_three_per_digit_witness :
    "23".toList ≠ [] ∧
    ((main_build "23".toList "14".toList "n".toList false).operations_size =
        3 * "23".toList.length ∧
      operations_capacity = 500000) :=
  ⟨by decide,
    operations_size_three_per_digit "23".toList "14".toList "n".toList false
      (by decide)⟩

/-! ### Line widths of the rendered output -/

/-- C6 counterexample: for multiplier "23", multiplicand "14" (so
`W = result_size + 2 = 5`), the multiplier line starting with `x` has
width `5 = W`, not `W - 1`; and the units line of row 1 has width
`4 ≠ W`, so content-line width does depend on the row index. -/
theorem line_width_claim_false :
    (main_build "23".toList "14".toList "n".toList false).result_size + 2 = 5 ∧
    (line2 (main_build "23".toList "14".toList "n".toList false)).length = 5 ∧
    (row_units_line (main_build "23".toList "14".toList "n".toList false) 1).length
      = 4 := by
  refine ⟨by decide, by decide, by decide⟩

/-- C6 amended: with `W = result_size + 2`, the operand lines (including
the `x` line), the separator lines, the shifted-contribution lines and the
final-result line of the non-annotated output all have width exactly `W`;
the three lines of row `r` in the per-row section have width exactly
`W - r` (receding by one per row index). -/
theorem line_widths_amended (m : Multiplication)
    (hflag : m.is_printing_description = false)
    (hA : m.multiplicand_str.length = m.multiplicand_size)
    (hM : m.multiplier_str.length = m.multiplier_size)
    (hAR : m.multiplicand_size ≤ m.result_size)
    (hMR : m.multiplier_size ≤ m.result_size)
    (hRc : m.result_size = count_digits m.result)
    (hRb : m.result_size ≤ 20)
    (hcd : ∀ i, i < m.operations_size →
      count_digits (m.operations.getD i 0) ≤ m.result_size - i / 3 ∧
      i / 3 ≤ m.result_size) :
    (line1 m).length = m.result_size + 2 ∧
    (line2 m).length = m.result_size + 2 ∧
    (sep_line (add64 spaces_left m.result_size) '=').length = m.result_size + 2 ∧
    (sep_line (add64 spaces_left m.result_size) '-').length = m.result_size + 2 ∧
    (∀ r, 3 * r + 2 < m.operations_size →
      (row_units_line m r).length = m.result_size + 2 - r ∧
      (row_carry_line m r).length = m.result_size + 2 - r ∧
      (row_sum_line m r).length = m.result_size + 2 - r) ∧
    (∀ r, 3 * r + 2 < m.operations_size →
      (shifted_line m r).length = m.result_size + 2) ∧
    (final_line m).length = m.result_size + 2 := by
  have hRM : m.result_size < M64 := lt_of_le_of_lt hRb (by norm_num [M64])
  have hsepw : add64 spaces_left m.result_size = 2 + m.result_size := by
    apply add64_eq
    unfold spaces_left M64
    omega
  have hrowlen : ∀ r j, j < 3 → 3 * r + 2 < m.operations_size →
      (wsub (wsub m.result_size r)
          (count_digits (m.operations.getD (3 * r + j) 0))) +
        (dec_repr (m.operations.getD (3 * r + j) 0)).length = m.result_size - r := by
    intro r j hj hr
    have hi : 3 * r + j < m.operations_size := by omega
    have hdiv : (3 * r + j) / 3 = r := by omega
    have hc := hcd (3 * r + j) hi
    rw [hdiv] at hc
    have hw1 : wsub m.result_size r = m.result_size - r := wsub_eq hc.2 hRM
    rw [hw1]
    have hw2 : wsub (m.result_size - r)
        (count_digits (m.operations.getD (3 * r + j) 0)) =
        m.result_size - r - count_digits (m.operations.getD (3 * r + j) 0) :=
      wsub_eq hc.1 (by omega)
    rw [hw2, dec_repr_length]
    omega
  refine ⟨?_, ?_, ?_, ?_, ?_, ?_, ?_⟩
  · unfold line1 set_text_fill
    rw [hflag]
    have hw : wsub m.result_size m.multiplicand_size =
        m.result_size - m.multiplicand_size := wsub_eq hAR hRM
    have ha : add64 spaces_left (m.result_size - m.multiplicand_size) =
        2 + (m.result_size - m.multiplicand_size) := by
      apply add64_eq
      unfold spaces_left M64
      omega
    simp only [hw, ha, List.length_append, List.length_replicate, List.length_nil,
      if_false, Bool.false_eq_true]
    omega
  · unfold line2 set_text_fill
    rw [hflag]
    have hw0 : wsub spaces_left 1 = 1 := by decide
    have hw : wsub m.result_size m.multiplier_size =
        m.result_size - m.multiplier_size := wsub_eq hMR hRM
    have ha : add64 1 (m.result_size - m.multiplier_size) =
        1 + (m.result_size - m.multiplier_size) := by
      apply add64_eq
      unfold M64
      omega
    simp only [hw0, hw, ha, List.length_cons, List.length_append,
      List.length_replicate, List.length_nil, if_false, Bool.false_eq_true]
    omega
  · unfold sep_line
    rw [hsepw, List.length_replicate]
    omega
  · unfold sep_line
    rw [hsepw, List.length_replicate]
    omega
  · intro r hr
    have hrw : r ≤ m.result_size := by
      have hc := hcd (3 * r + 2) hr
      have hdiv : (3 * r + 2) / 3 = r := by omega
      rw [hdiv] at hc
      exact hc.2
    refine ⟨?_, ?_, ?_⟩
    · unfold row_units_line set_text_fill
      rw [hflag]
      have := hrowlen r 0 (by norm_num) hr
      simp only [Nat.add_zero] at this
      simp only [List.length_cons, List.length_append, List.length_replicate,
        List.length_nil, if_false, Bool.false_eq_true]
      omega
    · unfold row_carry_line set_text_fill
      rw [hflag]
      have := hrowlen r 1 (by norm_num) hr
      simp only [List.length_cons, List.length_append, List.length_replicate,
        List.length_nil, if_false, Bool.false_eq_true]
      omega
    · unfold row_sum_line set_text_fill
      rw [hflag]
      have := hrowlen r 2 (by norm_num) hr
      simp only [List.length_cons, List.length_append, List.length_replicate,
        List.length_nil, if_false, Bool.false_eq_true]
      omega
  · intro r hr
    have hrw : r ≤ m.result_size := by
      have hc := hcd (3 * r + 2) hr
      have hdiv : (3 * r + 2) / 3 = r := by omega
      rw [hdiv] at hc
      exact hc.2
    unfold shifted_line set_text_fill
    rw [hflag]
    have := hrowlen r 2 (by norm_num) hr
    simp only [List.length_cons, List.length_append, List.length_replicate,
      List.length_nil, if_false, Bool.false_eq_true]
    omega
  · unfold final_line
    rw [hflag]
    simp only [List.length_cons, List.length_append, List.length_nil, if_false,
      Bool.false_eq_true]
    rw [dec_repr_length]
    omega

/-- Witness for C6's amended theorem at multiplier "23", multiplicand
"14". -/
theorem line_widths_amended_witness :
    ((main_build "23".toList "14".toList "n".toList false).is_printing_description
        = false) ∧
    ((main_build "23".toList "14".toList "n".toList false).multiplicand_str.length
        = (main_build "23".toList "14".toList "n".toList false).multiplicand_size) ∧
    ((main_build "23".toList "14".toList "n".toList false).multiplier_str.length
        = (main_build "23".toList "14".toList "n".toList false).multiplier_size) ∧
    ((main_build "23".toList "14".toList "n".toList false).multiplicand_size
        ≤ (main_build "23".toList "14".toList "n".toList false).result_size) ∧
    ((main_build "23".toList "14".toList "n".toList false).multiplier_size
        ≤ (main_build "23".toList "14".toList "n".toList false).result_size) ∧
    ((main_build "23".toList "14".toList "n".toList false).result_size =
      count_digits (main_build "23".toList "14".toList "n".toList false).result) ∧
    ((main_build "23".toList "14".toList "n".toList false).result_size ≤ 20) ∧
    (∀ i, i < (main_build "23".toList "14".toList "n".toList false).operations_size →
      count_digits
          ((main_build "23".toList "14".toList "n".toList false).operations.getD i 0)
        ≤ (main_build "23".toList "14".toList "n".toList false).result_size - i / 3 ∧
      i / 3 ≤ (main_build "23".toList "14".toList "n".toList false).result_size) ∧
    ((line1 (main_build "23".toList "14".toList "n".toList false)).length =
      (main_build "23".toList "14".toList "n".toList false).result_size + 2 ∧
    (line2 (main_build "23".toList "14".toList "n".toList false)).length =
      (main_build "23".toList "14".toList "n".toList false).result_size + 2 ∧
    (sep_line (add64 spaces_left
        (main_build "23".toList "14".toList "n".toList false).result_size) '=').length
      = (main_build "23".toList "14".toList "n".toList false).result_size + 2 ∧
    (sep_line (add64 spaces_left
        (main_build "23".toList "14".toList "n".toList false).result_size) '-').length
      = (main_build "23".toList "14".toList "n".toList false).result_size + 2 ∧
    (∀ r, 3 * r + 2 <
        (main_build "23".toList "14".toList "n".toList false).operations_size →
      (row_units_line (main_build "23".toList "14".toList "n".toList false) r).length
        = (main_build "23".toList "14".toList "n".toList false).result_size + 2 - r ∧
      (row_carry_line (main_build "23".toList "14".toList "n".toList false) r).length
        = (main_build "23".toList "14".toList "n".toList false).result_size + 2 - r ∧
      (row_sum_line (main_build "23".toList "14".toList "n".toList false) r).length
        = (main_build "23".toList "14".toList "n".toList false).result_size + 2 - r) ∧
    (∀ r, 3 * r + 2 <
        (main_build "23".toList "14".toList "n".toList false).operations_size →
      (shifted_line (main_build "23".toList "14".toList "n".toList false) r).length
        = (main_build "23".toList "14".toList "n".toList false).result_size + 2) ∧
    (final_line (main_build "23".toList "14".toList "n".toList false)).length =
      (main_build "23".toList "14".toList "n".toList false).result_size + 2) :=
  ⟨by decide, by decide, by decide, by decide, by decide, by decide, by decide,
    by decide,
    line_widths_amended (main_build "23".toList "14".toList "n".toList false)
      (by decide) (by decide) (by decide) (by decide) (by decide) (by decide)
      (by decide) (by decide)⟩

/-! ### The shifted-contribution section -/

lemma map_range_getD (f : Nat → List Char) (n r : Nat) (hr : r < n) :
    ((List.range n).map f).getD r [] = f r := by
  rw [List.getD_eq_getElem _ _ (by simpa using hr)]
  simp

/-- C7 counterexample: for multiplier "23", multiplicand "14" the
shifted-contribution section has one line per row INCLUDING the first:
its first line is `+  42` (row 0's sum, zero trailing zeros), so the first
row does get a line in this section. -/
theorem shifted_first_row_has_line :
    (shifted_section (main_build "23".toList "14".toList "n".toList false)).length
      = 2 ∧
    (shifted_section
        (main_build "23".toList "14".toList "n".toList false)).getD 0 []
      = "+  42".toList ∧
    (gen_ops "23".toList "14".toList).getD 2 0 = 42 := by
  refine ⟨by decide, by decide, by decide⟩

/-- C7 amended: in the shifted-contribution section a `+ row_sum` line
followed by `index`-many trailing zero characters is printed for EVERY
row, including the first (whose line carries zero trailing zeros): line
`r` shows `digit_at(multiplier, r) * multiplicand` followed by `r`
zeros. -/
theorem shifted_section_every_row (mstr astr arg4 : List Char) (flag_init : Bool)
    (hm : ∀ c ∈ mstr, 48 ≤ c.toNat ∧ c.toNat ≤ 57)
    (ha : ∀ c ∈ astr, 48 ≤ c.toNat ∧ c.toNat ≤ 57)
    (hlen : astr.length ≤ 18)
    (hflag : (main_build mstr astr arg4 flag_init).is_printing_description
      = false) :
    (shifted_section (main_build mstr astr arg4 flag_init)).length =
      mstr.length ∧
    ∀ r, r < mstr.length →
      (shifted_section (main_build mstr astr arg4 flag_init)).getD r [] =
        '+' :: ' ' :: (set_text_fill ' '
            (wsub (wsub (main_build mstr astr arg4 flag_init).result_size r)
              (count_digits (digit_at mstr r * pv astr))) ++
          dec_repr (digit_at mstr r * pv astr) ++
          set_text_fill '0' r) := by
  have hops : (main_build mstr astr arg4 flag_init).operations_size =
      3 * mstr.length := by
    show (gen_ops mstr astr).length = 3 * mstr.length
    exact gen_ops_length mstr astr
  have hdiv : 3 * mstr.length / 3 = mstr.length := by omega
  have hsec : shifted_section (main_build mstr astr arg4 flag_init) =
      (List.range ((main_build mstr astr arg4 flag_init).operations_size / 3)).map
        (shifted_line (main_build mstr astr arg4 flag_init)) := rfl
  constructor
  · rw [hsec, hops, hdiv, List.length_map, List.length_range]
  · intro r hr
    have hv : (main_build mstr astr arg4 flag_init).operations.getD (3 * r + 2) 0 =
        digit_at mstr r * pv astr := by
      show (gen_ops mstr astr).getD (3 * r + 2) 0 = _
      rw [gen_ops_getD mstr astr r 2 hr (by norm_num),
        row_block_spec mstr astr r hm ha hlen hr]
      simp
    rw [hsec, hops, hdiv, map_range_getD _ _ r hr]
    unfold shifted_line
    rw [hflag, hv]
    simp

/-- Witness for C7's amended theorem at multiplier "23", multiplicand
"14". -/
theorem shifted_section_every_row_witness :
    (∀ c ∈ "23".toList, 48 ≤ c.toNat ∧ c.toNat ≤ 57) ∧
    (∀ c ∈ "14".toList, 48 ≤ c.toNat ∧ c.toNat ≤ 57) ∧
    "14".toList.length ≤ 18 ∧
    ((main_build "23".toList "14".toList "n".toList false).is_printing_description
      = false) ∧
    ((shifted_section (main_build "23".toList "14".toList "n".toList false)).length
        = "23".toList.length ∧
    ∀ r, r < "23".toList.length →
      (shifted_section
          (main_build "23".toList "14".toList "n".toList false)).getD r [] =
        '+' :: ' ' :: (set_text_fill ' '
            (wsub (wsub
                (main_build "23".toList "14".toList "n".toList false).result_size r)
              (count_digits (digit_at "23".toList r * pv "14".toList))) ++
          dec_repr (digit_at "23".toList r * pv "14".toList) ++
          set_text_fill '0' r)) :=
  ⟨by decide, by decide, by decide, by decide,
    shifted_section_every_row "23".toList "14".toList "n".toList false
      (by decide) (by decide) (by decide) (by decide)⟩
